import Mathlib

/-!
# Roku in-app-purchase validator (`roku/validator.go`)

A shallow embedding of the `roku` package: the client constructors `New` and
`NewWithConfig`, and `Client.Verify`, which performs one HTTP GET and maps the
outcome to a validation record or an error.

The package calls four libraries, which are modelled here as far as `Verify`
uses them:

* `gorequest`: the network is a state holding the requests sent so far and a
  function giving the answer to a request;
* `encoding/json`: the scanner of `scanner.go` as a state machine on
  characters, followed by the decoding of an object into a struct;
* `strconv`: `ParseInt` and `ParseFloat` on JSON number literals;
* `fmt` and `errors`: the verb `%v` and `errors.New`.

Go strings are modelled by Lean strings (valid UTF-8 text), `time.Duration`
(an `int64` count of nanoseconds) by `Int`, Go's `int` (64 bits) by `Int`, and
a `float32` by the rational number it denotes.
-/

namespace Roku

/-! ## Data model -/

/-- The constant `ProductionURL`. -/
def ProductionURL : String := "https://apipub.roku.com"

/-- Go's `time.Duration`: a signed count of nanoseconds. -/
abbrev Duration := Int

/-- The constant `time.Second`. -/
def Second : Duration := 1000000000

/-- The struct `Config`. -/
structure Config where
  IsProduction : Bool
  DevToken : String
  TimeOut : Duration
  deriving DecidableEq, Repr

/-- The struct `IAPValidationResponse`; a `float32` is given by its exact
value. -/
structure IAPValidationResponse where
  TransactionID : String := ""
  PurchaseDate : String := ""
  ChannelName : String := ""
  ProductName : String := ""
  ProductID : String := ""
  Amount : ℚ := 0
  Currency : String := ""
  Quantity : Int := 0
  ExpirationDate : String := ""
  OriginalPurchaseDate : String := ""
  Status : String := ""
  ErrorMessage : String := ""
  deriving DecidableEq, Repr

/-- The struct `IAPResponseError`. -/
structure IAPResponseError where
  Status : String := ""
  Message : String := ""
  ErrorDetails : String := ""
  ErrorCode : String := ""
  deriving DecidableEq, Repr

/-- The struct `Client`. -/
structure Client where
  URL : String
  DevToken : String
  TimeOut : Duration
  deriving DecidableEq, Repr

/-! ## Constructors -/

/-- The function `New`: the interface value it returns wraps this `Client`. -/
def New (devToken : String) : Client :=
  { URL := ProductionURL, DevToken := devToken, TimeOut := Second * 5 }

/-- The function `NewWithConfig`. -/
def NewWithConfig (config : Config) : Client :=
  let config := if config.TimeOut = 0 then { config with TimeOut := Second * 5 } else config
  let client : Client :=
    { URL := ProductionURL, DevToken := config.DevToken, TimeOut := config.TimeOut }
  let client := if config.IsProduction then { client with URL := ProductionURL } else client
  client

/-! ## JSON text (`encoding/json`) -/

/-- A JSON value as the decoder sees it: strings are unquoted, numbers keep
their literal text (the decoder hands the literal to `strconv`). -/
inductive JValue where
  | null
  | bool (b : Bool)
  | number (literal : List Char)
  | string (s : String)
  | array (elems : List JValue)
  | object (members : List (String × JValue))
  deriving Repr

/-- A piece of a string literal: a character (written raw or as a simple
escape) or the 16-bit unit of a `\uXXXX` escape. -/
inductive StrItem where
  | char (c : Char)
  | unit (u : Nat)
  deriving Repr

/-- The `parseState` stack entries of the scanner, carrying what was read. -/
inductive Frame where
  | objectKey (members : List (String × JValue)) (key : Option String)
  | objectValue (members : List (String × JValue)) (key : Option String)
  | arrayValue (elems : List JValue)
  deriving Repr

/-- The scanner's step functions (`stateBeginValue`, `stateInString`, ...). -/
inductive Step where
  | beginValue
  | beginValueOrEmpty
  | beginString
  | beginStringOrEmpty
  | inString (acc : List StrItem)
  | inStringEsc (acc : List StrItem)
  | inStringEscU (acc : List StrItem) (digits : List Nat)
  | neg (lit : List Char)
  | zero (lit : List Char)
  | one (lit : List Char)
  | dot (lit : List Char)
  | dot0 (lit : List Char)
  | e (lit : List Char)
  | eSign (lit : List Char)
  | e0 (lit : List Char)
  | literal (expect : List Char) (value : JValue)
  | endValue
  deriving Repr

/-- The scanner after some input: still reading, finished with the first
top-level value (`scanEnd`), or stopped at an offending character
(`scanError`). -/
inductive Scanner where
  | running (step : Step) (parseState : List Frame)
  | done (value : JValue)
  | failed
  deriving Repr

/-- The constant `maxNestingDepth`. -/
def maxNestingDepth : Nat := 10000

/-- The function `isSpace`. -/
def isSpace (c : Char) : Bool :=
  c = ' ' || c = (Char.ofNat 9) || c = (Char.ofNat 13) || c = (Char.ofNat 10)

/-- The test `'0' <= c && c <= '9'`. -/
def isDigit (c : Char) : Bool := '0' ≤ c && c ≤ '9'

/-- Value of a hexadecimal digit, as accepted in `\uXXXX`. -/
def hexValue (c : Char) : Option Nat :=
  if '0' ≤ c && c ≤ '9' then some (c.toNat - 48)
  else if 'a' ≤ c && c ≤ 'f' then some (c.toNat - 87)
  else if 'A' ≤ c && c ≤ 'F' then some (c.toNat - 55)
  else none

/-- The function `unquote` on a scanned literal: simple characters are kept,
`\uXXXX` units become characters, a surrogate pair written as two escapes is
combined, and a surrogate half without its partner becomes U+FFFD. -/
def unquote : List StrItem → List Char
  | [] => []
  | StrItem.char c :: rest => c :: unquote rest
  | StrItem.unit u :: StrItem.unit v :: rest =>
    if 0xD800 ≤ u ∧ u < 0xE000 then
      if u < 0xDC00 ∧ 0xDC00 ≤ v ∧ v < 0xE000 then
        Char.ofNat ((u - 0xD800) * 0x400 + (v - 0xDC00) + 0x10000) :: unquote rest
      else Char.ofNat 0xFFFD :: unquote (StrItem.unit v :: rest)
    else Char.ofNat u :: unquote (StrItem.unit v :: rest)
  | StrItem.unit u :: rest =>
    (if 0xD800 ≤ u ∧ u < 0xE000 then Char.ofNat 0xFFFD else Char.ofNat u) :: unquote rest

/-- A value has been read completely: hand it to the enclosing object or
array, or finish when there is none. -/
def deliver (v : JValue) : List Frame → Scanner
  | [] => Scanner.done v
  | Frame.objectKey ms _ :: st =>
    match v with
    | JValue.string k => Scanner.running Step.endValue (Frame.objectKey ms (some k) :: st)
    | _ => Scanner.failed
  | Frame.objectValue ms (some k) :: st =>
    Scanner.running Step.endValue (Frame.objectValue ((k, v) :: ms) none :: st)
  | Frame.objectValue _ none :: _ => Scanner.failed
  | Frame.arrayValue es :: st => Scanner.running Step.endValue (Frame.arrayValue (v :: es) :: st)

/-- The function `pushParseState`, with its depth check. -/
def pushParseState (f : Frame) (st : List Frame) (next : Step) : Scanner :=
  if st.length + 1 ≤ maxNestingDepth then Scanner.running next (f :: st) else Scanner.failed

/-- The function `stateEndValue`, for a character met after a value inside an
object or array. -/
def stateEndValue (c : Char) (st : List Frame) : Scanner :=
  if isSpace c then Scanner.running Step.endValue st else
  match st with
  | [] => Scanner.failed
  | Frame.objectKey ms (some k) :: st =>
    if c = ':' then Scanner.running Step.beginValue (Frame.objectValue ms (some k) :: st)
    else Scanner.failed
  | Frame.objectKey _ none :: _ => Scanner.failed
  | Frame.objectValue ms none :: st =>
    if c = ',' then Scanner.running Step.beginString (Frame.objectKey ms none :: st)
    else if c = '}' then deliver (JValue.object ms.reverse) st
    else Scanner.failed
  | Frame.objectValue _ (some _) :: _ => Scanner.failed
  | Frame.arrayValue es :: st =>
    if c = ',' then Scanner.running Step.beginValue (Frame.arrayValue es :: st)
    else if c = ']' then deliver (JValue.array es.reverse) st
    else Scanner.failed

/-- A number literal ended at character `c`, which is then read in
`stateEndValue`; at top level the value is complete and `c` is left unread. -/
def endNumber (lit : List Char) (c : Char) (st : List Frame) : Scanner :=
  match deliver (JValue.number lit.reverse) st with
  | Scanner.running _ st => stateEndValue c st
  | s => s

/-- The function `stateBeginValue`. -/
def stateBeginValue (c : Char) (st : List Frame) : Scanner :=
  if isSpace c then Scanner.running Step.beginValue st
  else if c = '{' then pushParseState (Frame.objectKey [] none) st Step.beginStringOrEmpty
  else if c = '[' then pushParseState (Frame.arrayValue []) st Step.beginValueOrEmpty
  else if c = Char.ofNat 34 then Scanner.running (Step.inString []) st
  else if c = '-' then Scanner.running (Step.neg [c]) st
  else if c = '0' then Scanner.running (Step.zero [c]) st
  else if c = 't' then Scanner.running (Step.literal ['r', 'u', 'e'] (JValue.bool true)) st
  else if c = 'f' then Scanner.running (Step.literal ['a', 'l', 's', 'e'] (JValue.bool false)) st
  else if c = 'n' then Scanner.running (Step.literal ['u', 'l', 'l'] JValue.null) st
  else if '1' ≤ c ∧ c ≤ '9' then Scanner.running (Step.one [c]) st
  else Scanner.failed

/-- The function `stateBeginString`. -/
def stateBeginString (c : Char) (st : List Frame) : Scanner :=
  if isSpace c then Scanner.running Step.beginString st
  else if c = Char.ofNat 34 then Scanner.running (Step.inString []) st
  else Scanner.failed

/-- The function `state0`: after a leading `0`, or after the integer digits. -/
def state0 (lit : List Char) (c : Char) (st : List Frame) : Scanner :=
  if c = '.' then Scanner.running (Step.dot (c :: lit)) st
  else if c = 'e' ∨ c = 'E' then Scanner.running (Step.e (c :: lit)) st
  else endNumber lit c st

/-- The function `stateESign`. -/
def stateESign (lit : List Char) (c : Char) (st : List Frame) : Scanner :=
  if isDigit c then Scanner.running (Step.e0 (c :: lit)) st else Scanner.failed

/-- One scanner transition on character `c` (`scan.step(&scan, c)`). -/
def step (s : Step) (st : List Frame) (c : Char) : Scanner :=
  match s with
  | Step.beginValue => stateBeginValue c st
  | Step.beginValueOrEmpty =>
    if isSpace c then Scanner.running Step.beginValueOrEmpty st
    else if c = ']' then stateEndValue c st
    else stateBeginValue c st
  | Step.beginStringOrEmpty =>
    if isSpace c then Scanner.running Step.beginStringOrEmpty st
    else if c = '}' then
      match st with
      | Frame.objectKey ms _ :: st => stateEndValue c (Frame.objectValue ms none :: st)
      | _ => Scanner.failed
    else stateBeginString c st
  | Step.beginString => stateBeginString c st
  | Step.inString acc =>
    if c = Char.ofNat 34 then deliver (JValue.string (String.mk (unquote acc.reverse))) st
    else if c = Char.ofNat 92 then Scanner.running (Step.inStringEsc acc) st
    else if c.toNat < 0x20 then Scanner.failed
    else Scanner.running (Step.inString (StrItem.char c :: acc)) st
  | Step.inStringEsc acc =>
    if c = 'b' then Scanner.running (Step.inString (StrItem.char (Char.ofNat 8) :: acc)) st
    else if c = 'f' then Scanner.running (Step.inString (StrItem.char (Char.ofNat 12) :: acc)) st
    else if c = 'n' then Scanner.running (Step.inString (StrItem.char (Char.ofNat 10) :: acc)) st
    else if c = 'r' then Scanner.running (Step.inString (StrItem.char (Char.ofNat 13) :: acc)) st
    else if c = 't' then Scanner.running (Step.inString (StrItem.char (Char.ofNat 9) :: acc)) st
    else if c = Char.ofNat 92 ∨ c = '/' ∨ c = Char.ofNat 34 then
      Scanner.running (Step.inString (StrItem.char c :: acc)) st
    else if c = 'u' then Scanner.running (Step.inStringEscU acc []) st
    else Scanner.failed
  | Step.inStringEscU acc ds =>
    match hexValue c with
    | none => Scanner.failed
    | some d =>
      if ds.length < 3 then Scanner.running (Step.inStringEscU acc (ds ++ [d])) st
      else
        Scanner.running
          (Step.inString (StrItem.unit ((ds ++ [d]).foldl (fun n x => 16 * n + x) 0) :: acc)) st
  | Step.neg lit =>
    if c = '0' then Scanner.running (Step.zero (c :: lit)) st
    else if '1' ≤ c ∧ c ≤ '9' then Scanner.running (Step.one (c :: lit)) st
    else Scanner.failed
  | Step.one lit =>
    if isDigit c then Scanner.running (Step.one (c :: lit)) st else state0 lit c st
  | Step.zero lit => state0 lit c st
  | Step.dot lit =>
    if isDigit c then Scanner.running (Step.dot0 (c :: lit)) st else Scanner.failed
  | Step.dot0 lit =>
    if isDigit c then Scanner.running (Step.dot0 (c :: lit)) st
    else if c = 'e' ∨ c = 'E' then Scanner.running (Step.e (c :: lit)) st
    else endNumber lit c st
  | Step.e lit =>
    if c = '+' ∨ c = '-' then Scanner.running (Step.eSign (c :: lit)) st
    else stateESign lit c st
  | Step.eSign lit => stateESign lit c st
  | Step.e0 lit =>
    if isDigit c then Scanner.running (Step.e0 (c :: lit)) st else endNumber lit c st
  | Step.literal expect v =>
    match expect with
    | [] => Scanner.failed
    | [x] => if c = x then deliver v st else Scanner.failed
    | x :: rest => if c = x then Scanner.running (Step.literal rest v) st else Scanner.failed
  | Step.endValue => stateEndValue c st

/-- Feed one character to the scanner; `done` and `failed` are final. -/
def Scanner.feed (s : Scanner) (c : Char) : Scanner :=
  match s with
  | Scanner.running s st => step s st c
  | s => s

/-- The start of a scan (`scan.reset()`). -/
def Scanner.reset : Scanner := Scanner.running Step.beginValue []

/-! ## Go error values -/

/-- The error values that `Verify` can return. `SyntaxError` stands for any
`*json.SyntaxError` (its message and offset are not modelled), and the offset
of an `UnmarshalTypeError` is not modelled. -/
inductive GoError where
  /-- The value made by `errors.New(s)`, and by `fmt.Errorf` without `%w`;
  its `Error()` text is `s`. -/
  | errorString (s : String)
  /-- The value `io.EOF`. -/
  | EOF
  /-- The value `io.ErrUnexpectedEOF`. -/
  | ErrUnexpectedEOF
  | SyntaxError
  | UnmarshalTypeError (Value : String) (GoType : String) (Struct : String) (Field : String)
  deriving DecidableEq, Repr

/-- The function `errors.New`. -/
def errorsNew (text : String) : GoError := GoError.errorString text

/-! ## Reading one value (`Decoder.readValue`) -/

/-- The first JSON value of the body, as `Decoder.Decode` reads it: text after
that value is left unread; an offending character gives a syntax error; when
the text ends inside a value the error is `io.ErrUnexpectedEOF`, or `io.EOF`
when the body holds nothing but white space. -/
def readValue (body : String) : Except GoError JValue :=
  match body.toList.foldl Scanner.feed Scanner.reset with
  | Scanner.done v => Except.ok v
  | Scanner.failed => Except.error GoError.SyntaxError
  | Scanner.running s st =>
    match step s st ' ' with
    | Scanner.done v => Except.ok v
    | _ =>
      if body.toList.all isSpace then Except.error GoError.EOF
      else Except.error GoError.ErrUnexpectedEOF

/-! ## Numbers (`strconv`) -/

/-- Value of a run of decimal digits. -/
def digitsValue (ds : List Char) : Nat :=
  ds.foldl (fun n c => 10 * n + (c.toNat - 48)) 0

/-- The call `strconv.ParseInt(lit, 10, 64)` on a JSON number literal: the
literal must be an optional minus sign and digits, and lie in the `int64`
range. -/
def ParseInt64 (lit : List Char) : Option Int :=
  let neg := lit.head? = some '-'
  let ds := if neg then lit.tail else lit
  if ds ≠ [] ∧ ds.all isDigit then
    let n := digitsValue ds
    if neg then (if n ≤ 2 ^ 63 then some (-(n : Int)) else none)
    else (if n < 2 ^ 63 then some (n : Int) else none)
  else none

/-- A decimal literal `±digits × 10^exp`. -/
structure Decimal where
  neg : Bool
  digits : Nat
  exp : Int
  deriving DecidableEq, Repr

/-- Read a JSON number literal: integer part, optional fraction, optional
exponent. -/
def readDecimal (lit : List Char) : Option Decimal :=
  let neg := lit.head? = some '-'
  let r := if neg then lit.tail else lit
  let ip := r.takeWhile isDigit
  let r := r.dropWhile isDigit
  let hasDot := r.head? = some '.'
  let fp := if hasDot then r.tail.takeWhile isDigit else []
  let r := if hasDot then r.tail.dropWhile isDigit else r
  let hasExp := r.head? = some 'e' ∨ r.head? = some 'E'
  let r := if hasExp then r.tail else r
  let eneg := hasExp ∧ r.head? = some '-'
  let r := if hasExp ∧ (r.head? = some '-' ∨ r.head? = some '+') then r.tail else r
  let ep := if hasExp then r.takeWhile isDigit else []
  let r := if hasExp then r.dropWhile isDigit else r
  if ip ≠ [] ∧ r = [] ∧ (hasDot → fp ≠ []) ∧ (hasExp → ep ≠ []) then
    let e : Int := if eneg then -(digitsValue ep : Int) else (digitsValue ep : Int)
    some { neg := neg, digits := digitsValue (ip ++ fp), exp := e - (fp.length : Int) }
  else none

/-- The decimal as a fraction `p / q` of naturals (its absolute value). -/
def Decimal.fraction (d : Decimal) : Nat × Nat :=
  if 0 ≤ d.exp then (d.digits * 10 ^ d.exp.toNat, 1) else (d.digits, 10 ^ (-d.exp).toNat)

/-- The exact value of the decimal. -/
def Decimal.value (d : Decimal) : ℚ :=
  mkRat (if d.neg then -(d.fraction.1 : Int) else (d.fraction.1 : Int)) d.fraction.2

/-- Nearest integer to `p / q`, a tie going to the even one. -/
def roundHalfEven (p q : Nat) : Nat :=
  let d := p / q
  let r := p % q
  if 2 * r < q then d else if q < 2 * r then d + 1 else if d % 2 = 0 then d else d + 1

/-- Whether `2^e ≤ p / q`. -/
def pow2Le (e : Int) (p q : Nat) : Bool :=
  if 0 ≤ e then decide (2 ^ e.toNat * q ≤ p) else decide (q ≤ p * 2 ^ (-e).toNat)

/-- The binary exponent used to round `p / q` to a `float32`: the largest
`e = n - 126` with `2^e ≤ p / q`, not below the smallest normal exponent
`-126` (smaller values share the subnormal spacing). -/
def float32Exponent (p q : Nat) : Nat → Int
  | 0 => -126
  | n + 1 => if pow2Le ((n : Int) + 1 - 126) p q then (n : Int) + 1 - 126 else float32Exponent p q n

/-- The `float32` nearest to `p / q ≥ 0` (IEEE 754 binary32: 24 significant
bits, exponents `-126 .. 127`, ties to even, gradual underflow), as an exact
fraction `(numerator, denominator)`; `none` when the rounded value is beyond
the largest `float32`. -/
def nearestFloat32 (p q : Nat) : Option (Nat × Nat) :=
  let s : Int := float32Exponent p q 253 - 23
  let m : Nat :=
    if 0 ≤ s then roundHalfEven p (q * 2 ^ s.toNat) else roundHalfEven (p * 2 ^ (-s).toNat) q
  if 0 ≤ s then (if 2 ^ 128 ≤ m * 2 ^ s.toNat then none else some (m * 2 ^ s.toNat, 1))
  else some (m, 2 ^ (-s).toNat)

/-- The call `strconv.ParseFloat(lit, 32)` on a JSON number literal, by its
documented contract: the nearest `float32`, rounded half to even, and a range
error when the value is too large. The `float32` is given by its exact value
(the sign of a zero is not kept). -/
def ParseFloat32 (lit : List Char) : Option ℚ :=
  match readDecimal lit with
  | none => none
  | some d =>
    match nearestFloat32 d.fraction.1 d.fraction.2 with
    | none => none
    | some x => some (mkRat (if d.neg then -(x.1 : Int) else (x.1 : Int)) x.2)

/-! ## Decoding into the package's structs (`decodeState.object`) -/

/-- The kinds (`reflect.Kind`) of the fields of the two structs. -/
inductive Kind where
  | string
  | float32
  | int
  deriving DecidableEq, Repr

/-- The name of the Go type of a field of that kind. -/
def Kind.typeName : Kind → String
  | Kind.string => "string"
  | Kind.float32 => "float32"
  | Kind.int => "int"

/-- A Go value ready to be stored in a field. -/
inductive Stored where
  | string (s : String)
  | float32 (x : ℚ)
  | int (n : Int)
  deriving DecidableEq, Repr

/-- What decoding one JSON value into a field does: leave the field (JSON
`null`), set it, or record a type error naming the JSON value. -/
inductive Store where
  | keep
  | set (x : Stored)
  | typeError (Value : String)
  deriving DecidableEq, Repr

/-- The decoder on one field (`decodeState.value` for a field of kind `k`). -/
def storeValue (k : Kind) : JValue → Store
  | JValue.null => Store.keep
  | JValue.bool _ => Store.typeError "bool"
  | JValue.array _ => Store.typeError "array"
  | JValue.object _ => Store.typeError "object"
  | JValue.string s =>
    match k with
    | Kind.string => Store.set (Stored.string s)
    | _ => Store.typeError "string"
  | JValue.number lit =>
    match k with
    | Kind.string => Store.typeError "number"
    | Kind.float32 =>
      match ParseFloat32 lit with
      | some x => Store.set (Stored.float32 x)
      | none => Store.typeError ("number " ++ String.mk lit)
    | Kind.int =>
      match ParseInt64 lit with
      | some n => Store.set (Stored.int n)
      | none => Store.typeError ("number " ++ String.mk lit)

/-- A field of a struct as the decoder knows it: its `json` tag, its kind and
how a value is stored in it. -/
structure Field (σ : Type) where
  tag : String
  kind : Kind
  set : Stored → σ → σ

/-- The fields of `IAPResponseError`, in declaration order. -/
def errorFields : List (Field IAPResponseError) :=
  [ { tag := "status", kind := Kind.string,
      set := fun x r => match x with | Stored.string s => { r with Status := s } | _ => r },
    { tag := "errorMessage", kind := Kind.string,
      set := fun x r => match x with | Stored.string s => { r with Message := s } | _ => r },
    { tag := "errorDetails", kind := Kind.string,
      set := fun x r => match x with | Stored.string s => { r with ErrorDetails := s } | _ => r },
    { tag := "errorCode", kind := Kind.string,
      set := fun x r => match x with | Stored.string s => { r with ErrorCode := s } | _ => r } ]

/-- The fields of `IAPValidationResponse`, in declaration order. -/
def responseFields : List (Field IAPValidationResponse) :=
  [ { tag := "transactionId", kind := Kind.string,
      set := fun x r => match x with | Stored.string s => { r with TransactionID := s } | _ => r },
    { tag := "purchaseDate", kind := Kind.string,
      set := fun x r => match x with | Stored.string s => { r with PurchaseDate := s } | _ => r },
    { tag := "channelName", kind := Kind.string,
      set := fun x r => match x with | Stored.string s => { r with ChannelName := s } | _ => r },
    { tag := "productName", kind := Kind.string,
      set := fun x r => match x with | Stored.string s => { r with ProductName := s } | _ => r },
    { tag := "productId", kind := Kind.string,
      set := fun x r => match x with | Stored.string s => { r with ProductID := s } | _ => r },
    { tag := "amount", kind := Kind.float32,
      set := fun x r => match x with | Stored.float32 a => { r with Amount := a } | _ => r },
    { tag := "currency", kind := Kind.string,
      set := fun x r => match x with | Stored.string s => { r with Currency := s } | _ => r },
    { tag := "quantity", kind := Kind.int,
      set := fun x r => match x with | Stored.int n => { r with Quantity := n } | _ => r },
    { tag := "expirationDate", kind := Kind.string,
      set := fun x r => match x with | Stored.string s => { r with ExpirationDate := s } | _ => r },
    { tag := "originalPurchaseDate", kind := Kind.string,
      set := fun x r =>
        match x with | Stored.string s => { r with OriginalPurchaseDate := s } | _ => r },
    { tag := "status", kind := Kind.string,
      set := fun x r => match x with | Stored.string s => { r with Status := s } | _ => r },
    { tag := "errorMessage", kind := Kind.string,
      set := fun x r => match x with | Stored.string s => { r with ErrorMessage := s } | _ => r } ]

/-- Case folding of one character as far as it concerns ASCII tags: the
letters fold to lower case, and so do the two other characters whose Unicode
simple fold is an ASCII letter (U+212A to `k`, U+017F to `s`). -/
def foldChar (c : Char) : Char :=
  if c = Char.ofNat 0x212A then 'k'
  else if c = Char.ofNat 0x17F then 's'
  else if 'A' ≤ c ∧ c ≤ 'Z' then Char.ofNat (c.toNat + 32)
  else c

/-- The test `bytes.EqualFold(tag, key)` for an ASCII tag. -/
def equalFold (tag key : String) : Bool :=
  tag.toList.map foldChar = key.toList.map foldChar

/-- The field an object key selects: the one whose tag is the key exactly,
otherwise the first one whose tag equals the key under case folding. -/
def findField {σ : Type} (fields : List (Field σ)) (key : String) : Option (Field σ) :=
  match fields.find? (fun f => f.tag = key) with
  | some f => some f
  | none => fields.find? (fun f => equalFold f.tag key)

/-- The function `saveError`: only the first error is kept. -/
def saveError (saved : Option GoError) (err : GoError) : Option GoError :=
  match saved with
  | some e => some e
  | none => some err

/-- One `key: value` member decoded into the struct: an unknown key is
skipped, a mismatched value records a type error and decoding goes on. -/
def decodeMember {σ : Type} (structName : String) (fields : List (Field σ))
    (acc : σ × Option GoError) (member : String × JValue) : σ × Option GoError :=
  match findField fields member.1 with
  | none => acc
  | some f =>
    match storeValue f.kind member.2 with
    | Store.keep => acc
    | Store.set x => (f.set x acc.1, acc.2)
    | Store.typeError v =>
      (acc.1, saveError acc.2 (GoError.UnmarshalTypeError v f.kind.typeName structName f.tag))

/-- The function `decodeState.unmarshal` for a struct target: an object is
decoded member by member, `null` leaves the target alone, any other value is
a type error. -/
def unmarshal {σ : Type} (structName : String) (fields : List (Field σ)) (v : JValue)
    (target : σ) : σ × Option GoError :=
  match v with
  | JValue.object members => members.foldl (decodeMember structName fields) (target, none)
  | JValue.null => (target, none)
  | JValue.bool _ =>
    (target, some (GoError.UnmarshalTypeError "bool" ("roku." ++ structName) "" ""))
  | JValue.number _ =>
    (target, some (GoError.UnmarshalTypeError "number" ("roku." ++ structName) "" ""))
  | JValue.string _ =>
    (target, some (GoError.UnmarshalTypeError "string" ("roku." ++ structName) "" ""))
  | JValue.array _ =>
    (target, some (GoError.UnmarshalTypeError "array" ("roku." ++ structName) "" ""))

/-- The call `json.NewDecoder(strings.NewReader(body)).Decode(&target)`: the
first value of the body is read and checked as a whole, and only then decoded
into the target, so a body that does not scan leaves the target untouched. -/
def Decode {σ : Type} (structName : String) (fields : List (Field σ)) (body : String)
    (target : σ) : σ × Option GoError :=
  match readValue body with
  | Except.error e => (target, some e)
  | Except.ok v => unmarshal structName fields v target

/-! ## Formatting (`fmt`) -/

/-- The function `fmt.Sprintf`, for the one verb this package uses: `%v`
writes the next operand (given by its default text, which for a string is the
string itself) and `%%` a percent sign; a `%v` without operand writes
`%!v(MISSING)`. Other verbs are not modelled and are copied. -/
def Sprintf : List Char → List String → String
  | [], _ => ""
  | '%' :: 'v' :: rest, a :: args => a ++ Sprintf rest args
  | '%' :: 'v' :: rest, [] => "%!v(MISSING)" ++ Sprintf rest []
  | '%' :: '%' :: rest, args => "%" ++ Sprintf rest args
  | c :: rest, args => String.singleton c ++ Sprintf rest args

/-- The default text (`%v`) of a `[]error`: the texts of the errors between
brackets, separated by spaces. -/
def formatErrors (errs : List String) : String :=
  "[" ++ " ".intercalate errs ++ "]"

/-! ## The HTTP transport (`gorequest`) -/

/-- A request as `gorequest` sends it. -/
structure Request where
  Method : String
  Url : String
  Timeout : Duration
  deriving DecidableEq, Repr

/-- The part of `*http.Response` the package reads. -/
structure Response where
  StatusCode : Int
  deriving DecidableEq, Repr

/-- What `End()` returns: the response (nil when none was obtained), the body
and the errors of the transport, each given by its `Error()` text; `none` is
the nil slice. -/
structure EndResult where
  res : Option Response
  body : String
  errs : Option (List String)
  deriving DecidableEq, Repr

/-- The network as the client meets it: how it answers a request, and the
requests sent so far. -/
structure Network where
  respond : Request → EndResult
  sent : List Request

/-- The call `gorequest.New().Get(url).Timeout(timeout).End()`. -/
def gorequestGet (url : String) (timeout : Duration) (net : Network) : EndResult × Network :=
  let request : Request := { Method := "GET", Url := url, Timeout := timeout }
  (net.respond request, { net with sent := net.sent ++ [request] })

/-! ## Verify -/

/-- How a call of `Verify` ends: it returns its two results, or it panics on
the nil response (which `gorequest` does not hand out without errors). -/
inductive VerifyResult where
  | returned (result : IAPValidationResponse) (err : Option GoError)
  | nilDereference
  deriving DecidableEq, Repr

/-- The method `Client.Verify`. -/
def Client.Verify (c : Client) (transactionID : String) (net : Network) :
    VerifyResult × Network :=
  let result : IAPValidationResponse := {}
  let url := Sprintf "%v/listen/transaction-service.svc/validate-transaction/%v/%v".toList
    [c.URL, c.DevToken, transactionID]
  let (r, net) := gorequestGet url c.TimeOut net
  match r.errs with
  | some errs =>
    (VerifyResult.returned result
      (some (errorsNew (Sprintf "%v".toList [formatErrors errs]))), net)
  | none =>
    match r.res with
    | none => (VerifyResult.nilDereference, net)
    | some res =>
      if res.StatusCode < 200 ∨ res.StatusCode ≥ 300 then
        let responseError : IAPResponseError := {}
        let responseError := (Decode "IAPResponseError" errorFields r.body responseError).1
        (VerifyResult.returned result (some (errorsNew responseError.Message)), net)
      else
        let (result, err) := Decode "IAPValidationResponse" responseFields r.body result
        (VerifyResult.returned result err, net)

/-! ## Specification-side definitions -/

/-- The request the specification describes: a GET of
`{baseURL}/listen/transaction-service.svc/validate-transaction/{developerToken}/{transactionID}`
with the client's timeout, the three values inserted as they are. -/
def Client.specRequest (c : Client) (transactionID : String) : Request :=
  { Method := "GET",
    Url := c.URL ++ "/listen/transaction-service.svc/validate-transaction/" ++ c.DevToken
      ++ "/" ++ transactionID,
    Timeout := c.TimeOut }

/-- Whether decoding stores a value. -/
def Store.isSet : Store → Bool
  | Store.set _ => true
  | _ => false

/-- A well-formed object of a given shape: member names are distinct, each
is the tag of a field of the shape, and each value is one the field's type
takes (a string for a string field, a number in range for a numeric one). -/
def WellFormedObject {σ : Type} (fields : List (Field σ))
    (members : List (String × JValue)) : Prop :=
  (members.map Prod.fst).Nodup ∧
    ∀ kv ∈ members, ∃ f ∈ fields, f.tag = kv.1 ∧ (storeValue f.kind kv.2).isSet = true

instance {σ : Type} (fields : List (Field σ)) (members : List (String × JValue)) :
    Decidable (WellFormedObject fields members) := by
  unfold WellFormedObject
  exact inferInstance

/-- The string a JSON object gives for a name, or `dflt` when the object has
no string under that name. -/
def stringOr (tag : String) (members : List (String × JValue)) (dflt : String) : String :=
  match members.lookup tag with
  | some (JValue.string s) => s
  | _ => dflt

/-- The `float32` a JSON object gives for a name: its number rounded as
`strconv.ParseFloat` does, or `dflt` when there is none. -/
def float32Or (tag : String) (members : List (String × JValue)) (dflt : ℚ) : ℚ :=
  match members.lookup tag with
  | some (JValue.number lit) => (ParseFloat32 lit).getD dflt
  | _ => dflt

/-- The integer a JSON object gives for a name, or `dflt` when there is
none. -/
def intOr (tag : String) (members : List (String × JValue)) (dflt : Int) : Int :=
  match members.lookup tag with
  | some (JValue.number lit) => (ParseInt64 lit).getD dflt
  | _ => dflt

/-- The exact value of the number a JSON object gives for a name. -/
def numberValue (tag : String) (members : List (String × JValue)) : Option ℚ :=
  match members.lookup tag with
  | some (JValue.number lit) => (readDecimal lit).map Decimal.value
  | _ => none

/-- The values of type `float32` (zero, subnormal and normal numbers): an
integer of fewer than 25 bits times a power of two between `2^-149` and
`2^104`. -/
def IsFloat32 (x : ℚ) : Prop :=
  ∃ m e : ℤ, |m| < 2 ^ 24 ∧ -149 ≤ e ∧ e ≤ 104 ∧ x = m * (2 : ℚ) ^ e

/-! ## The test server (`validator_test.go`) -/

/-- The helper `testTools`: a server answering every request with the given
status code and the body followed by a newline, and a client for it. -/
def testTools (code : Int) (body : String) : Network × Client :=
  ({ respond := fun _ => { res := some { StatusCode := code }, body := body ++ "\n", errs := none },
     sent := [] },
   { URL := "http://127.0.0.1:8080", TimeOut := Second * 2, DevToken := "devToken" })

/-- The body served in `TestHandleError`. -/
def errorBody : String :=
  "\x7b\"errorMessage\":\"Purchase token/app user mismatch\",\"status\":\"Failure\"\x7d"

/-- The body served in `TestVerify`. -/
def successBody : String :=
  "\x7b\"transactionId\":\"\x7btransactionid\x7d\",\"purchaseDate\":\"2012-07-22T14:59:50\"," ++
  "\"channelName\":\"123Video\",\"productName\":\"123Video Monthly Subscription\"," ++
  "\"productId\":\"NETMONTH\",\"amount\":9.99,\"currency\":\"USD\",\"quantity\":1," ++
  "\"expirationDate\":\"2012-08-22T14:59:50\", \"originalPurchaseDate\":\"2010-08-22T14:59:50\"," ++
  " \"status\":\"Success\", \"errorMessage\":\"error_message\"\x7d"

/-- The JSON value of `successBody`. -/
def successMembers : List (String × JValue) :=
  [("transactionId", JValue.string "\x7btransactionid\x7d"),
   ("purchaseDate", JValue.string "2012-07-22T14:59:50"),
   ("channelName", JValue.string "123Video"),
   ("productName", JValue.string "123Video Monthly Subscription"),
   ("productId", JValue.string "NETMONTH"),
   ("amount", JValue.number ['9', '.', '9', '9']),
   ("currency", JValue.string "USD"),
   ("quantity", JValue.number ['1']),
   ("expirationDate", JValue.string "2012-08-22T14:59:50"),
   ("originalPurchaseDate", JValue.string "2010-08-22T14:59:50"),
   ("status", JValue.string "Success"),
   ("errorMessage", JValue.string "error_message")]

/-- The record `TestVerify` expects, its amount being the `float32` nearest
to 9.99. -/
def successExpected : IAPValidationResponse :=
  { TransactionID := "\x7btransactionid\x7d", PurchaseDate := "2012-07-22T14:59:50",
    ChannelName := "123Video", ProductName := "123Video Monthly Subscription",
    ProductID := "NETMONTH", Amount := mkRat 10475274 (2 ^ 20), Currency := "USD",
    Quantity := 1, ExpirationDate := "2012-08-22T14:59:50",
    OriginalPurchaseDate := "2010-08-22T14:59:50", Status := "Success",
    ErrorMessage := "error_message" }

/-! ## Theorems -/

/-- C7: for every token, `New` yields the client with the production URL, the
given token and a timeout of five seconds. -/
theorem New_eq (devToken : String) :
    New devToken
      = { URL := "https://apipub.roku.com", DevToken := devToken, TimeOut := 5 * Second } ∧
    ProductionURL = "https://apipub.roku.com" ∧ 5 * Second = (5000000000 : Int) := by
  refine ⟨?_, rfl, by decide⟩
  simp [New, ProductionURL, mul_comm]

/-- C8: `NewWithConfig` keeps any nonzero timeout exactly (negative ones too),
replaces a zero timeout by five seconds, and copies the developer token. -/
theorem NewWithConfig_timeout (cfg : Config) :
    (NewWithConfig cfg).TimeOut = (if cfg.TimeOut = 0 then 5 * Second else cfg.TimeOut) ∧
    (NewWithConfig cfg).DevToken = cfg.DevToken := by
  unfold NewWithConfig
  by_cases h : cfg.TimeOut = 0 <;> cases hp : cfg.IsProduction <;> simp [h, hp, mul_comm]

/-- C9: the `IsProduction` flag has no effect: both values give equal clients,
whose URL is the production URL. -/
theorem NewWithConfig_isProduction_irrelevant (devToken : String) (timeOut : Duration) :
    NewWithConfig { IsProduction := true, DevToken := devToken, TimeOut := timeOut }
      = NewWithConfig { IsProduction := false, DevToken := devToken, TimeOut := timeOut } ∧
    (NewWithConfig { IsProduction := true, DevToken := devToken, TimeOut := timeOut }).URL
      = ProductionURL ∧
    (NewWithConfig { IsProduction := false, DevToken := devToken, TimeOut := timeOut }).URL
      = ProductionURL := by
  unfold NewWithConfig
  by_cases h : timeOut = 0 <;> simp [h]

/-! ## Lemmas -/

set_option maxRecDepth 100000

theorem Sprintf_one (a : String) : Sprintf "%v".toList [a] = a := by
  simp [Sprintf]

theorem Sprintf_url (a b c : String) :
    Sprintf "%v/listen/transaction-service.svc/validate-transaction/%v/%v".toList [a, b, c]
      = a ++ "/listen/transaction-service.svc/validate-transaction/" ++ b ++ "/" ++ c := by
  apply String.ext
  simp [Sprintf, String.append_assoc, String.singleton, String.data_append]

/-- `Verify` sends the specified request once and maps the answer by its
three branches. -/
theorem Verify_unfold (c : Client) (transactionID : String) (net : Network) :
    c.Verify transactionID net =
      ((match (net.respond (c.specRequest transactionID)).errs with
        | some errs =>
          VerifyResult.returned {} (some (GoError.errorString (formatErrors errs)))
        | none =>
          match (net.respond (c.specRequest transactionID)).res with
          | none => VerifyResult.nilDereference
          | some res =>
            if res.StatusCode < 200 ∨ res.StatusCode ≥ 300 then
              VerifyResult.returned {} (some (GoError.errorString
                (Decode "IAPResponseError" errorFields
                  (net.respond (c.specRequest transactionID)).body {}).1.Message))
            else
              VerifyResult.returned
                (Decode "IAPValidationResponse" responseFields
                  (net.respond (c.specRequest transactionID)).body {}).1
                (Decode "IAPValidationResponse" responseFields
                  (net.respond (c.specRequest transactionID)).body {}).2),
       { net with sent := net.sent ++ [c.specRequest transactionID] }) := by
  unfold Client.Verify gorequestGet
  simp only [Sprintf_url, Sprintf_one, errorsNew]
  unfold Client.specRequest
  cases h : (net.respond _).errs with
  | some errs => simp [h]
  | none =>
    cases h2 : (net.respond _).res with
    | none => simp [h, h2]
    | some res =>
      by_cases hc : res.StatusCode < 200 ∨ res.StatusCode ≥ 300
      · simp [h, h2, hc]
      · simp [h, h2, hc]

theorem lookup_eq_none_of_not_mem (k : String) :
    ∀ members : List (String × JValue), k ∉ members.map Prod.fst → members.lookup k = none
  | [], _ => rfl
  | (k', v) :: rest, h => by
    simp only [List.map_cons, List.mem_cons, not_or] at h
    have hne : (k == k') = false := by simpa using h.1
    simp [List.lookup, hne, lookup_eq_none_of_not_mem k rest h.2]


theorem storeValue_string_isSet {v : JValue} (h : (storeValue Kind.string v).isSet = true) :
    ∃ s, v = JValue.string s := by
  cases v <;> simp [storeValue, Store.isSet] at h ⊢

theorem storeValue_float32_isSet {v : JValue} (h : (storeValue Kind.float32 v).isSet = true) :
    ∃ lit x, v = JValue.number lit ∧ ParseFloat32 lit = some x := by
  cases v with
  | number lit =>
    cases hp : ParseFloat32 lit with
    | none => simp [storeValue, Store.isSet, hp] at h
    | some x => exact ⟨lit, x, rfl, hp⟩
  | _ => simp [storeValue, Store.isSet] at h

theorem storeValue_int_isSet {v : JValue} (h : (storeValue Kind.int v).isSet = true) :
    ∃ lit n, v = JValue.number lit ∧ ParseInt64 lit = some n := by
  cases v with
  | number lit =>
    cases hp : ParseInt64 lit with
    | none => simp [storeValue, Store.isSet, hp] at h
    | some x => exact ⟨lit, x, rfl, hp⟩
  | _ => simp [storeValue, Store.isSet] at h

/-- Decoding a well-formed error object sets each field to the string the
object gives for its tag, and records no error. -/
theorem decode_error_members (members : List (String × JValue)) :
    ∀ (acc : IAPResponseError × Option GoError),
      WellFormedObject errorFields members →
      members.foldl (decodeMember "IAPResponseError" errorFields) acc =
        ({ Status := stringOr "status" members acc.1.Status,
           Message := stringOr "errorMessage" members acc.1.Message,
           ErrorDetails := stringOr "errorDetails" members acc.1.ErrorDetails,
           ErrorCode := stringOr "errorCode" members acc.1.ErrorCode }, acc.2) := by
  induction members with
  | nil => intro acc _; simp [stringOr, List.lookup]
  | cons kv rest ih =>
    intro acc hwf
    obtain ⟨k, v⟩ := kv
    obtain ⟨hnd, hall⟩ := hwf
    simp only [List.map_cons, List.nodup_cons] at hnd
    have hrest : WellFormedObject errorFields rest :=
      ⟨hnd.2, fun kv hkv => hall kv (List.mem_cons_of_mem _ hkv)⟩
    have hnone := lookup_eq_none_of_not_mem k rest hnd.1
    obtain ⟨f, hf, htag, hset⟩ := hall (k, v) (List.mem_cons_self _ _)
    rw [List.foldl_cons, ih _ hrest]
    simp only [errorFields, List.mem_cons, List.mem_singleton, List.not_mem_nil, or_false] at hf
    rcases hf with rfl | rfl | rfl | rfl <;>
    · simp only at htag hset
      subst htag
      obtain ⟨s, rfl⟩ := storeValue_string_isSet hset
      simp [decodeMember, findField, errorFields, storeValue, stringOr, List.lookup, hnone]

/-- Decoding a well-formed success object sets each field to the value the
object gives for its tag, and records no error. -/
theorem decode_response_members (members : List (String × JValue)) :
    ∀ (acc : IAPValidationResponse × Option GoError),
      WellFormedObject responseFields members →
      members.foldl (decodeMember "IAPValidationResponse" responseFields) acc =
        ({ TransactionID := stringOr "transactionId" members acc.1.TransactionID,
           PurchaseDate := stringOr "purchaseDate" members acc.1.PurchaseDate,
           ChannelName := stringOr "channelName" members acc.1.ChannelName,
           ProductName := stringOr "productName" members acc.1.ProductName,
           ProductID := stringOr "productId" members acc.1.ProductID,
           Amount := float32Or "amount" members acc.1.Amount,
           Currency := stringOr "currency" members acc.1.Currency,
           Quantity := intOr "quantity" members acc.1.Quantity,
           ExpirationDate := stringOr "expirationDate" members acc.1.ExpirationDate,
           OriginalPurchaseDate :=
             stringOr "originalPurchaseDate" members acc.1.OriginalPurchaseDate,
           Status := stringOr "status" members acc.1.Status,
           ErrorMessage := stringOr "errorMessage" members acc.1.ErrorMessage }, acc.2) := by
  induction members with
  | nil => intro acc _; simp [stringOr, float32Or, intOr, List.lookup]
  | cons kv rest ih =>
    intro acc hwf
    obtain ⟨k, v⟩ := kv
    obtain ⟨hnd, hall⟩ := hwf
    simp only [List.map_cons, List.nodup_cons] at hnd
    have hrest : WellFormedObject responseFields rest :=
      ⟨hnd.2, fun kv hkv => hall kv (List.mem_cons_of_mem _ hkv)⟩
    have hnone := lookup_eq_none_of_not_mem k rest hnd.1
    obtain ⟨f, hf, htag, hset⟩ := hall (k, v) (List.mem_cons_self _ _)
    rw [List.foldl_cons, ih _ hrest]
    simp only [responseFields, List.mem_cons, List.mem_singleton, List.not_mem_nil, or_false] at hf
    rcases hf with rfl | rfl | rfl | rfl | rfl | rfl | rfl | rfl | rfl | rfl | rfl | rfl <;>
    · simp only at htag hset
      subst htag
      first
      | obtain ⟨s, rfl⟩ := storeValue_string_isSet hset
        simp [decodeMember, findField, responseFields, storeValue, stringOr, float32Or, intOr,
          List.lookup, hnone]
      | obtain ⟨lit, x, rfl, hx⟩ := storeValue_float32_isSet hset
        simp [decodeMember, findField, responseFields, storeValue, stringOr, float32Or, intOr,
          List.lookup, hnone, hx]
      | obtain ⟨lit, x, rfl, hx⟩ := storeValue_int_isSet hset
        simp [decodeMember, findField, responseFields, storeValue, stringOr, float32Or, intOr,
          List.lookup, hnone, hx]

/-- C1: a response without transport failure, with a status outside 200..299
and a body that is a well-formed error object, makes `Verify` return the
zero-value result and an error whose text is exactly the object's
`errorMessage` string (empty when the object has none). -/
theorem Verify_error_message (c : Client) (transactionID : String) (net : Network)
    (resp : Response) (members : List (String × JValue))
    (herrs : (net.respond (c.specRequest transactionID)).errs = none)
    (hres : (net.respond (c.specRequest transactionID)).res = some resp)
    (hcode : resp.StatusCode < 200 ∨ resp.StatusCode ≥ 300)
    (hbody : readValue (net.respond (c.specRequest transactionID)).body
      = Except.ok (JValue.object members))
    (hwf : WellFormedObject errorFields members) :
    (c.Verify transactionID net).1
      = VerifyResult.returned {}
          (some (GoError.errorString (stringOr "errorMessage" members ""))) ∧
    ({} : IAPValidationResponse)
      = { TransactionID := "", PurchaseDate := "", ChannelName := "", ProductName := "",
          ProductID := "", Amount := 0, Currency := "", Quantity := 0, ExpirationDate := "",
          OriginalPurchaseDate := "", Status := "", ErrorMessage := "" } := by
  refine ⟨?_, rfl⟩
  rw [Verify_unfold]
  simp only [herrs, hres, hcode, if_true, Decode, hbody, unmarshal]
  rw [decode_error_members members _ hwf]

/-- Witness of C1: the scenario of `TestHandleError`, status 497 and the
body `{"errorMessage":"Purchase token/app user mismatch","status":"Failure"}`,
gives the error text `Purchase token/app user mismatch`. -/
theorem Verify_error_message_witness :
    readValue (errorBody ++ "\n")
      = Except.ok (JValue.object
          [("errorMessage", JValue.string "Purchase token/app user mismatch"),
           ("status", JValue.string "Failure")]) ∧
    ((testTools 497 errorBody).2.Verify "\x7btransactionid\x7d" (testTools 497 errorBody).1).1
      = VerifyResult.returned {}
          (some (GoError.errorString "Purchase token/app user mismatch")) :=
  ⟨by rfl,
   (Verify_error_message (testTools 497 errorBody).2 "\x7btransactionid\x7d"
    (testTools 497 errorBody).1 { StatusCode := 497 }
    [("errorMessage", JValue.string "Purchase token/app user mismatch"),
     ("status", JValue.string "Failure")]
    rfl rfl (by decide) (by rfl) (by decide)).1⟩

/-! ## Rounding to `float32` -/

theorem pow2Le_iff (e : Int) (p q : Nat) (hq : 0 < q) :
    pow2Le e p q = true ↔ (2 : ℚ) ^ e ≤ (p : ℚ) / q := by
  have hq' : (0 : ℚ) < q := by exact_mod_cast hq
  unfold pow2Le
  by_cases he : 0 ≤ e
  · obtain ⟨k, rfl⟩ := Int.eq_ofNat_of_zero_le he
    simp only [he, if_true, Int.toNat_ofNat, decide_eq_true_eq, zpow_natCast]
    rw [le_div_iff₀ hq']
    exact_mod_cast Iff.rfl
  · obtain ⟨k, hk⟩ : ∃ k : ℕ, e = -(k : ℤ) := ⟨(-e).toNat, by omega⟩
    subst hk
    simp only [he, if_false, neg_neg, Int.toNat_ofNat, decide_eq_true_eq, zpow_neg, zpow_natCast]
    have h2 : (0 : ℚ) < 2 ^ k := by positivity
    rw [inv_eq_one_div, div_le_div_iff₀ h2 hq', one_mul]
    exact_mod_cast Iff.rfl

theorem float32Exponent_bounds (p q : Nat) :
    ∀ n : Nat, -126 ≤ float32Exponent p q n ∧ float32Exponent p q n ≤ (n : ℤ) - 126
  | 0 => by simp [float32Exponent]
  | n + 1 => by
    have ih := float32Exponent_bounds p q n
    unfold float32Exponent
    split
    · constructor <;> push_cast <;> omega
    · constructor <;> push_cast <;> omega

theorem float32Exponent_le (p q : Nat) (hq : 0 < q) :
    ∀ n : Nat, float32Exponent p q n = -126 ∨
      (2 : ℚ) ^ float32Exponent p q n ≤ (p : ℚ) / q
  | 0 => by simp [float32Exponent]
  | n + 1 => by
    unfold float32Exponent
    split
    · rename_i h
      exact Or.inr ((pow2Le_iff _ p q hq).1 h)
    · exact float32Exponent_le p q hq n

theorem float32Exponent_lt (p q : Nat) (hq : 0 < q) :
    ∀ (n : Nat) (e : ℤ), float32Exponent p q n < e → e ≤ (n : ℤ) - 126 →
      (p : ℚ) / q < (2 : ℚ) ^ e
  | 0, e, h1, h2 => by
    simp only [float32Exponent] at h1
    omega
  | n + 1, e, h1, h2 => by
    unfold float32Exponent at h1
    split at h1
    · push_cast at h2
      omega
    · rename_i h
      by_cases he : e = (n : ℤ) + 1 - 126
      · subst he
        rw [← not_le, ← pow2Le_iff _ p q hq]
        exact h
      · exact float32Exponent_lt p q hq n e h1 (by push_cast at h2; omega)

theorem roundHalfEven_spec (P Q : Nat) (hQ : 0 < Q) :
    |(roundHalfEven P Q : ℚ) - (P : ℚ) / Q| ≤ 1 / 2 := by
  have hQ' : (0 : ℚ) < Q := by exact_mod_cast hQ
  have hP : (P : ℚ) = Q * (P / Q : ℕ) + (P % Q : ℕ) := by
    exact_mod_cast (Nat.div_add_mod P Q).symm
  have hx : (P : ℚ) / Q = (P / Q : ℕ) + ((P % Q : ℕ) : ℚ) / Q := by
    rw [hP, add_div, mul_div_cancel_left₀ _ hQ'.ne']
  have hlow : ((P % Q : ℕ) : ℚ) / Q ≤ 1 / 2 ↔ 2 * (P % Q) ≤ Q := by
    rw [div_le_iff₀ hQ']
    constructor
    · intro h
      have : (2 : ℚ) * (P % Q : ℕ) ≤ Q := by linarith
      exact_mod_cast this
    · intro h
      have : (2 : ℚ) * (P % Q : ℕ) ≤ Q := by exact_mod_cast h
      linarith
  have hhigh : 1 / 2 ≤ ((P % Q : ℕ) : ℚ) / Q ↔ Q ≤ 2 * (P % Q) := by
    rw [le_div_iff₀ hQ']
    constructor
    · intro h
      have : (Q : ℚ) ≤ 2 * (P % Q : ℕ) := by linarith
      exact_mod_cast this
    · intro h
      have : (Q : ℚ) ≤ 2 * (P % Q : ℕ) := by exact_mod_cast h
      linarith
  have ht0 : (0 : ℚ) ≤ ((P % Q : ℕ) : ℚ) / Q := by positivity
  have ht1 : ((P % Q : ℕ) : ℚ) / Q ≤ 1 := by
    rw [div_le_one hQ']
    exact_mod_cast (Nat.mod_lt P hQ).le
  unfold roundHalfEven
  simp only
  rw [hx, abs_le]
  split_ifs with h1 h2 h3
  · have := hlow.2 h1.le
    constructor <;> linarith
  · have := hhigh.2 h2.le
    push_cast
    constructor <;> linarith
  · have := hlow.2 (by omega)
    constructor <;> linarith
  · have := hhigh.2 (by omega)
    push_cast
    constructor <;> linarith

/-- The rounded integer is as near as any integer. -/
theorem roundHalfEven_nearest (P Q : Nat) (hQ : 0 < Q) (j : ℤ) :
    |(roundHalfEven P Q : ℚ) - (P : ℚ) / Q| ≤ |(j : ℚ) - (P : ℚ) / Q| := by
  have h := roundHalfEven_spec P Q hQ
  by_cases hj : j = (roundHalfEven P Q : ℤ)
  · subst hj
    push_cast
    exact le_refl _
  · have h1 : (1 : ℚ) ≤ |(j : ℚ) - (roundHalfEven P Q : ℚ)| := by
      have : (1 : ℤ) ≤ |j - (roundHalfEven P Q : ℤ)| := by
        have : j - (roundHalfEven P Q : ℤ) ≠ 0 := sub_ne_zero.2 hj
        exact Int.one_le_abs this
      exact_mod_cast this
    have h2 : |(j : ℚ) - (roundHalfEven P Q : ℚ)|
        ≤ |(j : ℚ) - (P : ℚ) / Q| + |(roundHalfEven P Q : ℚ) - (P : ℚ) / Q| := by
      have := abs_sub_le (j : ℚ) ((P : ℚ) / Q) (roundHalfEven P Q : ℚ)
      rwa [abs_sub_comm ((P : ℚ) / Q) (roundHalfEven P Q : ℚ)] at this
    linarith

/-- The value `nearestFloat32` returns is `k * 2^s`, for the exponent `s` it
chose and an integer `k` nearest to `(p/q) / 2^s`. -/
theorem nearestFloat32_eq (p q : Nat) (hq : 0 < q) (x : Nat × Nat)
    (h : nearestFloat32 p q = some x) :
    ∃ k : ℕ, 0 < x.2 ∧
      (x.1 : ℚ) / x.2 = k * (2 : ℚ) ^ (float32Exponent p q 253 - 23) ∧
      |(k : ℚ) - (p : ℚ) / q / (2 : ℚ) ^ (float32Exponent p q 253 - 23)| ≤ 1 / 2 ∧
      (∀ j : ℤ, |(k : ℚ) - (p : ℚ) / q / (2 : ℚ) ^ (float32Exponent p q 253 - 23)|
        ≤ |(j : ℚ) - (p : ℚ) / q / (2 : ℚ) ^ (float32Exponent p q 253 - 23)|) ∧
      (0 ≤ float32Exponent p q 253 - 23 →
        (k : ℚ) * (2 : ℚ) ^ (float32Exponent p q 253 - 23) < 2 ^ 128) := by
  have hq' : (0 : ℚ) < q := by exact_mod_cast hq
  unfold nearestFloat32 at h
  simp only at h
  generalize float32Exponent p q 253 - 23 = s at h ⊢
  by_cases hs : 0 ≤ s
  · obtain ⟨t, rfl⟩ := Int.eq_ofNat_of_zero_le hs
    simp only [hs, if_true, Int.toNat_ofNat] at h
    split at h
    · cases h
    · rename_i hov
      cases h
      have hQ : 0 < q * 2 ^ t := by positivity
      have hdiv : (p : ℚ) / q / (2 : ℚ) ^ (t : ℤ) = (p : ℚ) / ((q * 2 ^ t : ℕ) : ℚ) := by
        rw [zpow_natCast, div_div]
        push_cast
        rfl
      refine ⟨roundHalfEven p (q * 2 ^ t), Nat.one_pos, ?_, ?_, ?_, ?_⟩
      · simp only [zpow_natCast]
        push_cast
        simp
      · rw [hdiv]
        exact roundHalfEven_spec p (q * 2 ^ t) hQ
      · intro j
        rw [hdiv]
        exact roundHalfEven_nearest p (q * 2 ^ t) hQ j
      · intro _
        rw [zpow_natCast]
        have := Nat.lt_of_not_le hov
        exact_mod_cast this
  · obtain ⟨t, ht⟩ : ∃ t : ℕ, s = -(t : ℤ) := ⟨(-s).toNat, by omega⟩
    subst ht
    simp only [hs, if_false, neg_neg, Int.toNat_ofNat] at h
    cases h
    have h2 : (0 : ℚ) < 2 ^ t := by positivity
    have hdiv : (p : ℚ) / q / (2 : ℚ) ^ (-(t : ℤ)) = ((p * 2 ^ t : ℕ) : ℚ) / q := by
      rw [zpow_neg, zpow_natCast, div_inv_eq_mul]
      push_cast
      rw [div_mul_eq_mul_div]
    refine ⟨roundHalfEven (p * 2 ^ t) q, by positivity, ?_, ?_, ?_, ?_⟩
    · rw [zpow_neg, zpow_natCast]
      push_cast
      rw [div_eq_mul_inv]
    · rw [hdiv]
      exact roundHalfEven_spec (p * 2 ^ t) q hq
    · intro j
      rw [hdiv]
      exact roundHalfEven_nearest (p * 2 ^ t) q hq j
    · intro h0
      exact absurd h0 hs

/-- The value `nearestFloat32` returns is a `float32`, and no `float32` is
nearer to `p / q`. -/
theorem nearestFloat32_nearest (p q : Nat) (hq : 0 < q) (x : Nat × Nat)
    (h : nearestFloat32 p q = some x) :
    IsFloat32 ((x.1 : ℚ) / x.2) ∧
      ∀ y, IsFloat32 y → |(x.1 : ℚ) / x.2 - (p : ℚ) / q| ≤ |y - (p : ℚ) / q| := by
  obtain ⟨k, _, hx, hhalf, hnear, hover⟩ := nearestFloat32_eq p q hq x h
  obtain ⟨hE1, hE2⟩ := float32Exponent_bounds p q 253
  have hle := float32Exponent_le p q hq 253
  have hlt := float32Exponent_lt p q hq 253
  generalize float32Exponent p q 253 = E at hx hhalf hnear hover hE1 hE2 hle hlt
  generalize (p : ℚ) / q = a at hhalf hnear hle hlt ⊢
  have hu : (0 : ℚ) < 2 ^ (E - 23) := by positivity
  have hE : (2 : ℚ) ^ E = 2 ^ 23 * 2 ^ (E - 23) := by
    rw [← zpow_natCast (2 : ℚ) 23, ← zpow_add₀ (two_ne_zero)]
    congr 1
    omega
  -- distances scale with the unit `2^(E-23)`
  have hscale : ∀ j : ℚ, |j * 2 ^ (E - 23) - a| = |j - a / 2 ^ (E - 23)| * 2 ^ (E - 23) := by
    intro j
    rw [← abs_of_pos hu, ← abs_mul, abs_of_pos hu, sub_mul, div_mul_cancel₀ _ hu.ne']
  have hmult : ∀ j : ℤ, |(k : ℚ) * 2 ^ (E - 23) - a| ≤ |(j : ℚ) * 2 ^ (E - 23) - a| := by
    intro j
    rw [hscale, hscale]
    exact mul_le_mul_of_nonneg_right (hnear j) hu.le
  -- the rounded integer has at most 24 bits, or is `2^24`
  have hk : k ≤ 2 ^ 24 ∧ (E = 127 → k < 2 ^ 24) := by
    by_cases h127 : E = 127
    · subst h127
      have h1 := hover (by norm_num)
      have h2 : (k : ℚ) < 2 ^ 24 := by
        have h3 : (2 : ℚ) ^ (127 - 23 : ℤ) = 2 ^ 104 := by norm_num
        rw [h3] at h1
        have h4 : (2 : ℚ) ^ 128 = 2 ^ 24 * 2 ^ 104 := by norm_num
        rw [h4] at h1
        exact lt_of_mul_lt_mul_right h1 (by positivity)
      have h5 : k < 2 ^ 24 := by exact_mod_cast h2
      exact ⟨h5.le, fun _ => h5⟩
    · have h1 : a < 2 ^ (E + 1) := hlt (E + 1) (by omega) (by push_cast at hE2 ⊢; omega)
      have h2 : a / 2 ^ (E - 23) < 2 ^ 24 := by
        rw [div_lt_iff₀ hu]
        have h3 : (2 : ℚ) ^ (E + 1) = 2 ^ 24 * 2 ^ (E - 23) := by
          rw [← zpow_natCast (2 : ℚ) 24, ← zpow_add₀ (two_ne_zero)]
          congr 1
          omega
        rwa [h3] at h1
      have h4 : (k : ℚ) < 2 ^ 24 + 1 := by
        have := (abs_le.1 hhalf).2
        linarith
      have h5 : k < 2 ^ 24 + 1 := by exact_mod_cast h4
      exact ⟨by omega, fun h => absurd h h127⟩
  rw [hx]
  constructor
  · -- the result is a float32
    by_cases hk24 : k = 2 ^ 24
    · have hE126 : E ≤ 126 := by
        by_contra hcon
        have : E = 127 := by push_cast at hE2; omega
        have := hk.2 this
        omega
      refine ⟨2 ^ 23, E - 23 + 1, by norm_num, by omega, by omega, ?_⟩
      rw [hk24, zpow_add₀ (two_ne_zero), zpow_one]
      push_cast
      ring
    · refine ⟨k, E - 23, ?_, by omega, by push_cast at hE2; omega, by push_cast; rfl⟩
      have : k < 2 ^ 24 := by omega
      rw [abs_of_nonneg (by positivity)]
      exact_mod_cast this
  · -- and no float32 is nearer
    rintro y ⟨m, e, hm, he1, he2, rfl⟩
    by_cases hes : E - 23 ≤ e
    · obtain ⟨t, ht⟩ : ∃ t : ℕ, e = E - 23 + t := ⟨(e - (E - 23)).toNat, by omega⟩
      have hy : (m : ℚ) * 2 ^ e = ((m * 2 ^ t : ℤ) : ℚ) * 2 ^ (E - 23) := by
        rw [ht, zpow_add₀ (two_ne_zero), zpow_natCast]
        push_cast
        ring
      rw [hy]
      exact hmult _
    · have hE125 : E ≠ -126 := by omega
      have haE : (2 : ℚ) ^ E ≤ a := by
        rcases hle with h | h
        · exact absurd h hE125
        · exact h
      have hyE : (m : ℚ) * 2 ^ e < 2 ^ E := by
        have h1 : (m : ℚ) < 2 ^ 24 := by
          have : m < 2 ^ 24 := (abs_lt.1 hm).2
          exact_mod_cast this
        have h2 : (0 : ℚ) < 2 ^ e := by positivity
        have h3 : (m : ℚ) * 2 ^ e < 2 ^ 24 * 2 ^ e := mul_lt_mul_of_pos_right h1 h2
        have h4 : (2 : ℚ) ^ 24 * 2 ^ e ≤ 2 ^ E := by
          rw [← zpow_natCast (2 : ℚ) 24, ← zpow_add₀ (two_ne_zero)]
          exact zpow_le_zpow_right₀ (by norm_num) (by push_cast; omega)
        linarith
      have h23 := hmult (2 ^ 23)
      have h23' : ((2 ^ 23 : ℤ) : ℚ) * 2 ^ (E - 23) = 2 ^ E := by
        rw [hE]
        push_cast
        rfl
      rw [h23', abs_of_nonpos (by linarith : (2 : ℚ) ^ E - a ≤ 0)] at h23
      have h5 : (m : ℚ) * 2 ^ e - a ≤ 0 := by linarith
      rw [abs_of_nonpos h5]
      linarith

theorem IsFloat32.neg {x : ℚ} (h : IsFloat32 x) : IsFloat32 (-x) := by
  obtain ⟨m, e, hm, he1, he2, rfl⟩ := h
  exact ⟨-m, e, by rwa [abs_neg], he1, he2, by push_cast; ring⟩

theorem Decimal.fraction_pos (d : Decimal) : 0 < d.fraction.2 := by
  unfold Decimal.fraction
  split <;> simp

theorem Decimal.value_eq (d : Decimal) :
    d.value = (if d.neg then -1 else 1) * ((d.fraction.1 : ℚ) / d.fraction.2) := by
  unfold Decimal.value
  rw [Rat.mkRat_eq_div]
  split <;> push_cast <;> ring

/-- What `ParseFloat32` returns for a literal is a `float32`, and no
`float32` is nearer to the number the literal denotes. -/
theorem ParseFloat32_nearest (lit : List Char) (d : Decimal) (x : ℚ)
    (hd : readDecimal lit = some d) (hx : ParseFloat32 lit = some x) :
    IsFloat32 x ∧ ∀ y, IsFloat32 y → |x - d.value| ≤ |y - d.value| := by
  unfold ParseFloat32 at hx
  rw [hd] at hx
  simp only at hx
  cases hn : nearestFloat32 d.fraction.1 d.fraction.2 with
  | none => rw [hn] at hx; cases hx
  | some r =>
    rw [hn] at hx
    simp only [Option.some.injEq] at hx
    obtain ⟨hf, hnear⟩ := nearestFloat32_nearest _ _ d.fraction_pos r hn
    rw [Decimal.value_eq, ← hx, Rat.mkRat_eq_div]
    cases hneg : d.neg with
    | false =>
      simp only [Bool.false_eq_true, if_false, one_mul]
      push_cast
      exact ⟨hf, hnear⟩
    | true =>
      simp only [if_true]
      push_cast
      refine ⟨by rw [neg_div]; exact hf.neg, fun y hy => ?_⟩
      have := hnear (-y) hy.neg
      rw [neg_div, neg_one_mul, ← abs_neg]
      rw [← abs_neg (y - _)]
      simpa [sub_eq_add_neg, add_comm] using this

/-- What `ParseInt64` returns for a literal is the number the literal
denotes. -/
theorem ParseInt64_value (lit : List Char) (n : Int) (h : ParseInt64 lit = some n) :
    (readDecimal lit).map Decimal.value = some (n : ℚ) := by
  unfold ParseInt64 at h
  simp only at h
  generalize hds : (if lit.head? = some '-' then lit.tail else lit) = ds at h
  by_cases hc : ds ≠ [] ∧ ds.all isDigit = true
  · rw [if_pos hc] at h
    obtain ⟨hne, hall⟩ := hc
    have hall' : ∀ c ∈ ds, isDigit c = true := by simpa using hall
    have htake := List.takeWhile_eq_self_iff.2 hall'
    have hdrop := List.dropWhile_eq_nil_iff.2 hall'
    have hrd : readDecimal lit
        = some { neg := decide (lit.head? = some '-'), digits := digitsValue ds, exp := 0 } := by
      unfold readDecimal
      simp only [hds, htake, hdrop]
      simp [hne, digitsValue]
    rw [hrd, Option.map_some', Option.some.injEq, Decimal.value_eq]
    simp only [Decimal.fraction, le_refl, if_true, Int.toNat_zero, pow_zero, mul_one,
      Nat.cast_one, div_one, decide_eq_true_eq]
    by_cases hneg : lit.head? = some '-'
    · rw [if_pos hneg] at h ⊢
      split at h
      · cases h
        push_cast
        ring
      · cases h
    · rw [if_neg hneg] at h ⊢
      split at h
      · cases h
        push_cast
        ring
      · cases h
  · rw [if_neg hc] at h
    cases h

/-- C2, as stated, fails: in the scenario of `TestVerify` (status 200, a
well-formed success body whose amount is the number 9.99) `Verify` returns a
nil error and an `Amount` of 10475274/2^20 = 9.98999977..., not 9.99; and a
body whose quantity is the integer 2^63 gives a non-nil error and quantity 0. -/
theorem Verify_amount_not_exact :
    (readValue (successBody ++ "\n") = Except.ok (JValue.object successMembers) ∧
      WellFormedObject responseFields successMembers ∧
      numberValue "amount" successMembers = some (999 / 100) ∧
      ((testTools 200 successBody).2.Verify "\x7btransactionid\x7d" (testTools 200 successBody).1).1
        = VerifyResult.returned successExpected none ∧
      successExpected.Amount = 10475274 / 2 ^ 20 ∧
      successExpected.Amount ≠ 999 / 100) ∧
    (readValue ("\x7b\"quantity\":9223372036854775808\x7d" ++ "\n")
        = Except.ok (JValue.object [("quantity", JValue.number "9223372036854775808".toList)]) ∧
      ((testTools 200 "\x7b\"quantity\":9223372036854775808\x7d").2.Verify "t"
          (testTools 200 "\x7b\"quantity\":9223372036854775808\x7d").1).1
        = VerifyResult.returned {}
            (some (GoError.UnmarshalTypeError "number 9223372036854775808" "int"
              "IAPValidationResponse" "quantity"))) := by
  have hval : numberValue "amount" successMembers = some (mkRat 999 100) := by decide
  have hamount : successExpected.Amount = 10475274 / 2 ^ 20 := by
    show mkRat 10475274 (2 ^ 20) = _
    norm_num [Rat.mkRat_eq_div]
  refine ⟨⟨by rfl, by decide, ?_, by decide, hamount, ?_⟩, by rfl, by decide⟩
  · rw [hval]; norm_num [Rat.mkRat_eq_div]
  · rw [hamount]; norm_num

theorem lookup_mem (k : String) :
    ∀ (members : List (String × JValue)) (v : JValue),
      members.lookup k = some v → (k, v) ∈ members
  | [], _, h => by simp [List.lookup] at h
  | (k', v') :: rest, v, h => by
    by_cases hk : k = k'
    · subst hk
      simp only [List.lookup, beq_self_eq_true, Option.some.injEq] at h
      subst h
      exact List.mem_cons_self _ _
    · have hne : (k == k') = false := by simpa using hk
      simp only [List.lookup, hne] at h
      exact List.mem_cons_of_mem _ (lookup_mem k rest v h)

/-- In a well-formed success object the amount is a number `ParseFloat32`
accepts. -/
theorem wellFormed_amount (members : List (String × JValue)) (v : JValue)
    (hwf : WellFormedObject responseFields members)
    (hl : members.lookup "amount" = some v) :
    ∃ lit x, v = JValue.number lit ∧ ParseFloat32 lit = some x := by
  obtain ⟨f, hf, htag, hset⟩ := hwf.2 _ (lookup_mem _ _ _ hl)
  simp only [responseFields, List.mem_cons, List.mem_singleton, List.not_mem_nil, or_false] at hf
  rcases hf with rfl | rfl | rfl | rfl | rfl | rfl | rfl | rfl | rfl | rfl | rfl | rfl <;>
    simp only at htag hset <;>
    first
    | exact absurd htag (by decide)
    | exact storeValue_float32_isSet hset

/-- In a well-formed success object the quantity is a number `ParseInt64`
accepts. -/
theorem wellFormed_quantity (members : List (String × JValue)) (v : JValue)
    (hwf : WellFormedObject responseFields members)
    (hl : members.lookup "quantity" = some v) :
    ∃ lit n, v = JValue.number lit ∧ ParseInt64 lit = some n := by
  obtain ⟨f, hf, htag, hset⟩ := hwf.2 _ (lookup_mem _ _ _ hl)
  simp only [responseFields, List.mem_cons, List.mem_singleton, List.not_mem_nil, or_false] at hf
  rcases hf with rfl | rfl | rfl | rfl | rfl | rfl | rfl | rfl | rfl | rfl | rfl | rfl <;>
    simp only at htag hset <;>
    first
    | exact absurd htag (by decide)
    | exact storeValue_int_isSet hset

/-- C2, amended: a response without transport failure, with a status in
200..299 and a body that is a well-formed success object, makes `Verify`
return a nil error and the record whose string fields are the object's
strings, whose `Quantity` is the object's integer exactly, and whose `Amount`
is a `float32` nearest to the object's number (the number itself only when
that is a `float32`); fields the object does not give are zero. -/
theorem Verify_success_fields (c : Client) (transactionID : String) (net : Network)
    (resp : Response) (members : List (String × JValue))
    (herrs : (net.respond (c.specRequest transactionID)).errs = none)
    (hres : (net.respond (c.specRequest transactionID)).res = some resp)
    (hcode : 200 ≤ resp.StatusCode ∧ resp.StatusCode < 300)
    (hbody : readValue (net.respond (c.specRequest transactionID)).body
      = Except.ok (JValue.object members))
    (hwf : WellFormedObject responseFields members) :
    (c.Verify transactionID net).1
      = VerifyResult.returned
          { TransactionID := stringOr "transactionId" members "",
            PurchaseDate := stringOr "purchaseDate" members "",
            ChannelName := stringOr "channelName" members "",
            ProductName := stringOr "productName" members "",
            ProductID := stringOr "productId" members "",
            Amount := float32Or "amount" members 0,
            Currency := stringOr "currency" members "",
            Quantity := intOr "quantity" members 0,
            ExpirationDate := stringOr "expirationDate" members "",
            OriginalPurchaseDate := stringOr "originalPurchaseDate" members "",
            Status := stringOr "status" members "",
            ErrorMessage := stringOr "errorMessage" members "" } none ∧
    (∀ q, numberValue "quantity" members = some q →
      ((intOr "quantity" members 0 : Int) : ℚ) = q) ∧
    (∀ a, numberValue "amount" members = some a →
      IsFloat32 (float32Or "amount" members 0) ∧
      (∀ y, IsFloat32 y → |float32Or "amount" members 0 - a| ≤ |y - a|) ∧
      (IsFloat32 a → float32Or "amount" members 0 = a)) := by
  have hc : ¬ (resp.StatusCode < 200 ∨ resp.StatusCode ≥ 300) := by omega
  refine ⟨?_, ?_, ?_⟩
  · rw [Verify_unfold]
    simp only [herrs, hres, hc, if_false, Decode, hbody, unmarshal]
    rw [decode_response_members members _ hwf]
  · intro q hq
    unfold numberValue at hq
    unfold intOr
    cases hl : members.lookup "quantity" with
    | none => simp [hl] at hq
    | some v =>
      obtain ⟨lit, n, rfl, hn⟩ := wellFormed_quantity members v hwf hl
      simp only [hl] at hq
      rw [ParseInt64_value lit n hn] at hq
      simp only [hn, Option.getD_some]
      exact Option.some.inj hq
  · intro a ha
    unfold numberValue at ha
    unfold float32Or
    cases hl : members.lookup "amount" with
    | none => simp [hl] at ha
    | some v =>
      obtain ⟨lit, x, rfl, hx⟩ := wellFormed_amount members v hwf hl
      simp only [hl] at ha
      cases hd : readDecimal lit with
      | none => simp [hd] at ha
      | some d =>
        simp only [hd, Option.map_some', Option.some.injEq] at ha
        subst ha
        simp only [hx, Option.getD_some]
        obtain ⟨hf, hnear⟩ := ParseFloat32_nearest lit d x hd hx
        refine ⟨hf, hnear, fun hfa => ?_⟩
        have h0 := hnear _ hfa
        rw [sub_self, abs_zero] at h0
        exact sub_eq_zero.1 (abs_nonpos_iff.1 h0)

/-- Witness of the amended C2: the scenario of `TestVerify`. -/
theorem Verify_success_fields_witness :
    WellFormedObject responseFields successMembers ∧
    ((testTools 200 successBody).2.Verify "\x7btransactionid\x7d" (testTools 200 successBody).1).1
      = VerifyResult.returned successExpected none :=
  ⟨by decide,
   (Verify_success_fields (testTools 200 successBody).2 "\x7btransactionid\x7d"
      (testTools 200 successBody).1 { StatusCode := 200 } successMembers
      rfl rfl (by decide) (by rfl) (by decide)).1.trans (by decide)⟩

theorem findField_mem {σ : Type} (fields : List (Field σ)) (key : String) (f : Field σ)
    (h : findField fields key = some f) : f ∈ fields := by
  unfold findField at h
  cases h1 : fields.find? (fun f => decide (f.tag = key)) with
  | some g =>
    rw [h1] at h
    cases h
    exact List.mem_of_find?_eq_some h1
  | none =>
    rw [h1] at h
    exact List.mem_of_find?_eq_some h

/-- Members that give `errorMessage` no string leave `Message` as it was. -/
theorem decode_error_message_kept (members : List (String × JValue)) :
    ∀ (acc : IAPResponseError × Option GoError),
      (∀ kv ∈ members, (findField errorFields kv.1).map Field.tag = some "errorMessage" →
        ∀ s, kv.2 ≠ JValue.string s) →
      (members.foldl (decodeMember "IAPResponseError" errorFields) acc).1.Message
        = acc.1.Message := by
  induction members with
  | nil => intro acc _; rfl
  | cons kv rest ih =>
    intro acc h
    rw [List.foldl_cons, ih _ (fun kv hkv => h kv (List.mem_cons_of_mem _ hkv))]
    have hkv := h kv (List.mem_cons_self _ _)
    unfold decodeMember
    cases hf : findField errorFields kv.1 with
    | none => rfl
    | some f =>
      simp only [hf, Option.map_some'] at hkv ⊢
      have hmem := findField_mem _ _ _ hf
      cases hs : storeValue f.kind kv.2 with
      | keep => rfl
      | typeError v => rfl
      | set x =>
        simp only [errorFields, List.mem_cons, List.mem_singleton, List.not_mem_nil,
          or_false] at hmem
        rcases hmem with rfl | rfl | rfl | rfl
        · cases x <;> rfl
        · exfalso
          obtain ⟨s, hv⟩ := storeValue_string_isSet (v := kv.2) (by simp [hs, Store.isSet])
          exact hkv rfl s hv
        · cases x <;> rfl
        · cases x <;> rfl

/-- C3, as stated, fails: with status 404 and the body
`{"errorMessage":"boom","status":5}` the body does not decode as the error
shape (`status` is a number), yet the error `Verify` returns has the text
`boom`, not the empty string. -/
theorem Verify_error_body_partial :
    (Decode "IAPResponseError" errorFields ("\x7b\"errorMessage\":\"boom\",\"status\":5\x7d" ++ "\n")
        ({} : IAPResponseError)).2
      = some (GoError.UnmarshalTypeError "number" "string" "IAPResponseError" "status") ∧
    ((testTools 404 "\x7b\"errorMessage\":\"boom\",\"status\":5\x7d").2.Verify "t"
        (testTools 404 "\x7b\"errorMessage\":\"boom\",\"status\":5\x7d").1).1
      = VerifyResult.returned {} (some (GoError.errorString "boom")) ∧
    GoError.errorString "boom" ≠ GoError.errorString "" := by
  refine ⟨by decide, by decide, by decide⟩

/-- C3, amended: a response without transport failure, with a status outside
200..299 and a body that gives `errorMessage` no string (an empty body, text
that is not JSON, a value that is not an object, an object without a string
under `errorMessage`), makes `Verify` return the zero-value result and the
error with the empty text, never the decoder's error. -/
theorem Verify_error_body_undecodable (c : Client) (transactionID : String) (net : Network)
    (resp : Response)
    (herrs : (net.respond (c.specRequest transactionID)).errs = none)
    (hres : (net.respond (c.specRequest transactionID)).res = some resp)
    (hcode : resp.StatusCode < 200 ∨ resp.StatusCode ≥ 300)
    (hmsg : ∀ members, readValue (net.respond (c.specRequest transactionID)).body
        = Except.ok (JValue.object members) →
      ∀ kv ∈ members, (findField errorFields kv.1).map Field.tag = some "errorMessage" →
        ∀ s, kv.2 ≠ JValue.string s) :
    (c.Verify transactionID net).1
      = VerifyResult.returned {} (some (GoError.errorString "")) := by
  rw [Verify_unfold]
  simp only [herrs, hres, hcode, if_true]
  have hm : (Decode "IAPResponseError" errorFields
      (net.respond (c.specRequest transactionID)).body ({} : IAPResponseError)).1.Message = "" := by
    unfold Decode
    cases hv : readValue (net.respond (c.specRequest transactionID)).body with
    | error e => rfl
    | ok v =>
      cases v with
      | object members =>
        simp only [unmarshal]
        rw [decode_error_message_kept members _ (hmsg members hv)]
      | _ => rfl
  rw [hm]

/-- Witness of the amended C3: status 497 and the body
`{"status":"Failure","errorMessage":42}`, which fails to decode because
`errorMessage` is a number. -/
theorem Verify_error_body_undecodable_witness :
    (Decode "IAPResponseError" errorFields
        ("\x7b\"status\":\"Failure\",\"errorMessage\":42\x7d" ++ "\n") ({} : IAPResponseError)).2
      = some (GoError.UnmarshalTypeError "number" "string" "IAPResponseError" "errorMessage") ∧
    ((testTools 497 "\x7b\"status\":\"Failure\",\"errorMessage\":42\x7d").2.Verify "t"
        (testTools 497 "\x7b\"status\":\"Failure\",\"errorMessage\":42\x7d").1).1
      = VerifyResult.returned {} (some (GoError.errorString "")) :=
  ⟨by decide,
   Verify_error_body_undecodable
    (testTools 497 "\x7b\"status\":\"Failure\",\"errorMessage\":42\x7d").2 "t"
    (testTools 497 "\x7b\"status\":\"Failure\",\"errorMessage\":42\x7d").1
    { StatusCode := 497 } rfl rfl (by decide)
    (by
      intro members h
      have h0 : readValue ("\x7b\"status\":\"Failure\",\"errorMessage\":42\x7d" ++ "\n")
          = Except.ok (JValue.object
              [("status", JValue.string "Failure"), ("errorMessage", JValue.number ['4', '2'])]) := by
        rfl
      have h1 : Except.ok (JValue.object
          [("status", JValue.string "Failure"), ("errorMessage", JValue.number ['4', '2'])])
          = (Except.ok (JValue.object members) : Except GoError JValue) := h0.symm.trans h
      injection h1 with h1
      injection h1 with h1
      subst h1
      intro kv hkv
      simp only [List.mem_cons, List.mem_singleton, List.not_mem_nil, or_false] at hkv
      rcases hkv with rfl | rfl
      · intro hsel
        exact absurd hsel (by decide)
      · intro _ s hs
        cases hs)⟩

/-- C4: when the transport reports errors, `Verify` returns the zero-value
result and the error whose text is the formatted list of those errors,
whatever response and body come along; the body is not decoded. -/
theorem Verify_transport_failure (c : Client) (transactionID : String) (net : Network)
    (errs : List String)
    (herrs : (net.respond (c.specRequest transactionID)).errs = some errs) :
    (c.Verify transactionID net).1
      = VerifyResult.returned {} (some (GoError.errorString (formatErrors errs))) ∧
    formatErrors errs = "[" ++ " ".intercalate errs ++ "]" := by
  refine ⟨?_, rfl⟩
  rw [Verify_unfold]
  simp only [herrs]

/-- Witness of C4: a timeout reported together with status 200 and a valid
success body still gives the transport error. -/
theorem Verify_transport_failure_witness :
    (({ URL := "http://127.0.0.1:8080", DevToken := "devToken", TimeOut := Second * 2 } :
          Client).Verify "timeout"
        { respond := fun _ =>
            { res := some { StatusCode := 200 }, body := successBody,
              errs := some ["Get http://127.0.0.1:8080: net/http: request canceled"] },
          sent := [] }).1
      = VerifyResult.returned {}
          (some (GoError.errorString
            "[Get http://127.0.0.1:8080: net/http: request canceled]")) :=
  (Verify_transport_failure
    { URL := "http://127.0.0.1:8080", DevToken := "devToken", TimeOut := Second * 2 } "timeout"
    { respond := fun _ =>
        { res := some { StatusCode := 200 }, body := successBody,
          errs := some ["Get http://127.0.0.1:8080: net/http: request canceled"] },
      sent := [] }
    ["Get http://127.0.0.1:8080: net/http: request canceled"] rfl).1.trans (by decide)

/-- C5: for a response without transport failure and with a status in
200..299, `Verify` returns exactly what the JSON decoder leaves: its result,
zero-valued when the body does not scan and partly filled when a field has
the wrong type, and its error, unchanged; so the error is nil exactly when
decoding succeeded. -/
theorem Verify_success_decode (c : Client) (transactionID : String) (net : Network)
    (resp : Response)
    (herrs : (net.respond (c.specRequest transactionID)).errs = none)
    (hres : (net.respond (c.specRequest transactionID)).res = some resp)
    (hcode : 200 ≤ resp.StatusCode ∧ resp.StatusCode < 300) :
    (c.Verify transactionID net).1
      = VerifyResult.returned
          (Decode "IAPValidationResponse" responseFields
            (net.respond (c.specRequest transactionID)).body {}).1
          (Decode "IAPValidationResponse" responseFields
            (net.respond (c.specRequest transactionID)).body {}).2 ∧
    (∀ e, readValue (net.respond (c.specRequest transactionID)).body = Except.error e →
      (c.Verify transactionID net).1 = VerifyResult.returned {} (some e)) ∧
    ((∃ result, (c.Verify transactionID net).1 = VerifyResult.returned result none) ↔
      (Decode "IAPValidationResponse" responseFields
        (net.respond (c.specRequest transactionID)).body {}).2 = none) := by
  have hc : ¬ (resp.StatusCode < 200 ∨ resp.StatusCode ≥ 300) := by omega
  have h : (c.Verify transactionID net).1
      = VerifyResult.returned
          (Decode "IAPValidationResponse" responseFields
            (net.respond (c.specRequest transactionID)).body {}).1
          (Decode "IAPValidationResponse" responseFields
            (net.respond (c.specRequest transactionID)).body {}).2 := by
    rw [Verify_unfold]
    simp only [herrs, hres, hc, if_false]
  refine ⟨h, ?_, ?_⟩
  · intro e he
    rw [h]
    simp only [Decode, he]
  · rw [h]
    constructor
    · rintro ⟨result, hr⟩
      injection hr
    · intro hn
      exact ⟨_, by rw [hn]⟩

/-- Witness of C5: status 200 and a body whose `quantity` is a string: the
fields around it are filled and the decoder's type error is returned. -/
theorem Verify_success_decode_witness :
    ((testTools 200
        "\x7b\"transactionId\":\"t1\",\"quantity\":\"many\",\"status\":\"Success\"\x7d").2.Verify
        "t1"
        (testTools 200
          "\x7b\"transactionId\":\"t1\",\"quantity\":\"many\",\"status\":\"Success\"\x7d").1).1
      = VerifyResult.returned { TransactionID := "t1", Status := "Success" }
          (some (GoError.UnmarshalTypeError "string" "int" "IAPValidationResponse" "quantity")) :=
  (Verify_success_decode
    (testTools 200
      "\x7b\"transactionId\":\"t1\",\"quantity\":\"many\",\"status\":\"Success\"\x7d").2 "t1"
    (testTools 200
      "\x7b\"transactionId\":\"t1\",\"quantity\":\"many\",\"status\":\"Success\"\x7d").1
    { StatusCode := 200 } rfl rfl (by decide)).1.trans (by decide)

/-- C6: whatever the client and the transaction id, `Verify` sends exactly
one request, a GET with the client's timeout whose URL is the base URL, the
fixed path, the developer token, a slash and the transaction id, joined as
they are. -/
theorem Verify_request_url (c : Client) (transactionID : String) (net : Network) :
    (c.Verify transactionID net).2.sent
      = net.sent ++
          [{ Method := "GET",
             Url := c.URL ++ "/listen/transaction-service.svc/validate-transaction/"
               ++ c.DevToken ++ "/" ++ transactionID,
             Timeout := c.TimeOut }] ∧
    (c.Verify transactionID net).2.respond = net.respond := by
  rw [Verify_unfold]
  exact ⟨rfl, rfl⟩

/-- C10: for a response without transport failure and any body, a status
below 200 or from 300 on gives the zero-value result and a non-nil error
(made with `errors.New`); a status in 200..299 gives what decoding the body
as a success record gives; so a nil error comes only with a status in
200..299. -/
theorem Verify_status_branches (c : Client) (transactionID : String) (net : Network)
    (resp : Response)
    (herrs : (net.respond (c.specRequest transactionID)).errs = none)
    (hres : (net.respond (c.specRequest transactionID)).res = some resp) :
    ((resp.StatusCode < 200 ∨ resp.StatusCode ≥ 300) →
      (c.Verify transactionID net).1
        = VerifyResult.returned {}
            (some (GoError.errorString
              (Decode "IAPResponseError" errorFields
                (net.respond (c.specRequest transactionID)).body {}).1.Message))) ∧
    ((200 ≤ resp.StatusCode ∧ resp.StatusCode ≤ 299) →
      (c.Verify transactionID net).1
        = VerifyResult.returned
            (Decode "IAPValidationResponse" responseFields
              (net.respond (c.specRequest transactionID)).body {}).1
            (Decode "IAPValidationResponse" responseFields
              (net.respond (c.specRequest transactionID)).body {}).2) ∧
    (∀ result, (c.Verify transactionID net).1 = VerifyResult.returned result none →
      200 ≤ resp.StatusCode ∧ resp.StatusCode ≤ 299) := by
  rw [Verify_unfold]
  simp only [herrs, hres]
  refine ⟨?_, ?_, ?_⟩
  · intro hc
    simp only [hc, if_true]
  · intro hc
    have hn : ¬ (resp.StatusCode < 200 ∨ resp.StatusCode ≥ 300) := by omega
    simp only [hn, if_false]
  · intro result hr
    by_cases hc : resp.StatusCode < 200 ∨ resp.StatusCode ≥ 300
    · simp only [hc, if_true] at hr
      injection hr with _ he
      cases he
    · omega

/-- Witness of C10: with the valid success body of `TestVerify`, the
statuses 199 and 300 give a non-nil error (its text is the `errorMessage` of
that body) and the zero-value result, and the statuses 200 and 299 give the
decoded record. -/
theorem Verify_status_branches_witness :
    ((testTools 199 successBody).2.Verify "t" (testTools 199 successBody).1).1
      = VerifyResult.returned {} (some (GoError.errorString "error_message")) ∧
    ((testTools 300 successBody).2.Verify "t" (testTools 300 successBody).1).1
      = VerifyResult.returned {} (some (GoError.errorString "error_message")) ∧
    ((testTools 200 successBody).2.Verify "t" (testTools 200 successBody).1).1
      = VerifyResult.returned successExpected none ∧
    ((testTools 299 successBody).2.Verify "t" (testTools 299 successBody).1).1
      = VerifyResult.returned successExpected none :=
  ⟨((Verify_status_branches (testTools 199 successBody).2 "t" (testTools 199 successBody).1
      { StatusCode := 199 } rfl rfl).1 (by decide)).trans (by decide),
   ((Verify_status_branches (testTools 300 successBody).2 "t" (testTools 300 successBody).1
      { StatusCode := 300 } rfl rfl).1 (by decide)).trans (by decide),
   ((Verify_status_branches (testTools 200 successBody).2 "t" (testTools 200 successBody).1
      { StatusCode := 200 } rfl rfl).2.1 (by decide)).trans (by decide),
   ((Verify_status_branches (testTools 299 successBody).2 "t" (testTools 299 successBody).1
      { StatusCode := 299 } rfl rfl).2.1 (by decide)).trans (by decide)⟩

end Roku
